import Mathlib

/-!
Verification development for the Newton-Krylov solver repository
(klindsay28/newton).  The central file of the repository is `model.py`,
which defines the vector-space abstraction `ModelState` (a collection of
`TracerModule`s), its arithmetic and dot products, the modified
Gram-Schmidt projection, the external-command suspend/resume protocol
(`run_ext_cmd`), the finite-difference Jacobian-vector product
(`comp_jacobian_fcn_state_prod`) and the linear-combination helper
(`lin_comb`).

The embedding has two layers.

* A typed layer: a `ModelState` over module count `m` with per-module
  flattened array sizes `d : Fin m → ℕ` is a dependent function
  `(k : Fin m) → Fin (d k) → α`.  Each tracer module's values (the numpy
  array `_vals` of shape `(n_vars, dims...)`) appear flattened, which is
  exactly how `TracerModule.dot` consumes them (`np.einsum` of the
  elementwise product over all axes).  Arithmetic between operands of
  matching shape is elementwise; the `numpy.ndarray` operand branch of the
  operators (a per-module coefficient array of shape `(cnt,)`) scales each
  module by its own coefficient.

* An untyped layer for the error-behaviour claims: tracer-module values as
  explicit 2-D arrays with shape data, numpy broadcasting of mismatched
  shapes, and the `TracerModule.__init__` / `ModelState.__init__` argument
  checks, with Python exceptions modelled by an error type.

The `solver_state` object consumed by `run_ext_cmd` and
`comp_jacobian_fcn_state_prod` is not part of the repository's source
here (only its callers are); it is modelled from the spec, §4.2.
Exiting the process, launching a subprocess, dumping a state to a file
and flushing the log are modelled as an ordered event trace returned
alongside the result.
-/

namespace Newton

/-- The state space of the model, `model.py` lines 10-21: a collection of
`m` tracer modules, module `k` holding `d k` floating-point values
(the `TracerModule._vals` array, flattened). -/
abbrev ModelState (m : ℕ) (d : Fin m → ℕ) (α : Type) : Type :=
  (k : Fin m) → Fin (d k) → α

namespace ModelState

variable {m : ℕ} {d : Fin m → ℕ} {α : Type}

/-- `ModelState.__add__` / `TracerModule.__add__` on operands of matching
shape (`model.py` lines 49-63 and 358-370): elementwise addition. -/
def add [Add α] (a b : ModelState m d α) : ModelState m d α :=
  fun k j => a k j + b k j

/-- `ModelState.__sub__` / `__isub__` and `TracerModule.__sub__` on
operands of matching shape (`model.py` lines 87-116, 385-410):
elementwise subtraction. -/
def sub [Sub α] (a b : ModelState m d α) : ModelState m d α :=
  fun k j => a k j - b k j

/-- The `numpy.ndarray` operand branch of `ModelState.__mul__` /
`__rmul__` (`model.py` lines 118-139): a coefficient array of shape
`(tracer_module_cnt,)` scales each tracer module by its own
coefficient. -/
def pmul [Mul α] (c : Fin m → α) (s : ModelState m d α) : ModelState m d α :=
  fun k j => c k * s k j

/-- The `numpy.ndarray` operand branch of `ModelState.__truediv__`
(`model.py` lines 156-170): the code computes `(1.0 / other) * self`,
dividing each tracer module by its own coefficient. -/
def pdiv [Field α] (s : ModelState m d α) (c : Fin m → α) : ModelState m d α :=
  fun k j => (1 / c k) * s k j

/-- `ModelState.dot` (`model.py` lines 201-206) together with
`TracerModule.dot` (lines 485-492): a per-module array of scalar dot
products, each the sum over all array elements of the elementwise
product (`np.einsum` with all indices repeated and none free). -/
def dot [CommRing α] (a b : ModelState m d α) : Fin m → α :=
  fun k => ∑ j, a k j * b k j

/-- `ModelState.norm` (`model.py` lines 208-210): the per-module
`np.sqrt` of `self.dot(self)`. -/
noncomputable def norm (s : ModelState m d ℝ) : Fin m → ℝ :=
  fun k => Real.sqrt (dot s s k)

/-- `ModelState.converged` (`model.py` lines 212-214):
`all(self.norm() < 1.0e-10)`. -/
def converged (s : ModelState m d ℝ) : Prop :=
  ∀ k, norm s k < 1e-10

theorem dot_sub_left [CommRing α] (a c b : ModelState m d α) (k : Fin m) :
    dot (sub a c) b k = dot a b k - dot c b k := by
  simp [dot, sub, sub_mul, Finset.sum_sub_distrib]

theorem dot_pmul_left [CommRing α] (c : Fin m → α) (s b : ModelState m d α)
    (k : Fin m) : dot (pmul c s) b k = c k * dot s b k := by
  simp [dot, pmul, Finset.mul_sum, mul_assoc]

theorem dot_self_nonneg (s : ModelState m d ℝ) (k : Fin m) :
    0 ≤ dot s s k :=
  Finset.sum_nonneg fun j _ => mul_self_nonneg (s k j)

/-- A per-module norm of `1` forces the per-module dot with itself
to be `1`. -/
theorem dot_self_eq_one_of_norm (s : ModelState m d ℝ) (k : Fin m)
    (h : norm s k = 1) : dot s s k = 1 := by
  have h2 : Real.sqrt (dot s s k) = 1 := h
  calc dot s s k = Real.sqrt (dot s s k) ^ 2 :=
        (Real.sq_sqrt (dot_self_nonneg s k)).symm
    _ = 1 := by rw [h2]; norm_num

end ModelState

/-- Modelled from the spec: the solver-state / StepLog object consumed by
`ModelState.run_ext_cmd` and `ModelState.comp_jacobian_fcn_state_prod` is
not among the given source files (only its callers are).  Per spec §4.2
it holds a work directory and an append-only durable set of completed
StepKeys, plus the step currently in flight. -/
structure SolverState where
  workdir : String
  log : List String
  currstep : Option String

/-- Modelled from the spec: `set_current_step(key)` records which step is
in flight without yet committing completion (spec §4.2). -/
def SolverState.set_currstep (ss : SolverState) (step : String) : SolverState :=
  ⟨ss.workdir, ss.log, some step⟩

/-- Modelled from the spec: `is_step_logged` for the step currently in
flight (spec §4.2). -/
def SolverState.currstep_logged (ss : SolverState) : Bool :=
  match ss.currstep with
  | some s => decide (s ∈ ss.log)
  | none => false

/-- Modelled from the spec: accessor for the solver's work directory. -/
def SolverState.get_workdir (ss : SolverState) : String :=
  ss.workdir

/-- The externally visible actions `run_ext_cmd` can perform, in order:
dumping a ModelState to a file (`self.dump(...)`), launching a
subprocess (`subprocess.Popen`), flushing the solver state to durable
storage (`solver_state.flush()`), and terminating the process
(`sys.exit()`). -/
inductive ExtEvent (V : Type) where
  | dumpState (path : String) (v : V)
  | popen (prog : String) (args : List String)
  | flushLog
  | procExit
  deriving DecidableEq

/-- Outcome of a call that may suspend: either control returns to the
caller with a value, or the process exits, or reading the result file
fails because it is absent. -/
inductive ExtResult (V : Type) where
  | returned (v : V) (ss : SolverState)
  | exited (ss : SolverState)
  | readFail (ss : SolverState)

/-- `ModelState.run_ext_cmd` (`model.py` lines 228-256).  The file system
is modelled as a map from file names to the ModelState values they hold
(`ModelState(tracer_module_names, res_fname)` reads the named file).
Returns the ordered trace of external actions together with the
outcome. -/
def run_ext_cmd {V : Type} (self : V) (ext_cmd res_fname : String)
    (solver_state : SolverState) (files : String → Option V) :
    List (ExtEvent V) × ExtResult V :=
  let currstep := "calling " ++ ext_cmd ++ " for " ++ res_fname
  let ss := solver_state.set_currstep currstep
  if ss.currstep_logged then
    match files res_fname with
    | some v => ([], .returned v ss)
    | none => ([], .readFail ss)
  else
    let ext_cmd_in_fname := ss.get_workdir ++ "/ext_in.nc"
    ([.dumpState ext_cmd_in_fname self,
      .popen "/bin/bash" [ext_cmd, ext_cmd_in_fname, res_fname],
      .flushLog,
      .procExit],
     .exited ss)

/-- C1: when the step key `calling <ext_cmd> for <res_fname>` is already
logged in the solver state and `res_fname` holds state `v`,
`run_ext_cmd` returns the ModelState read from `res_fname` and performs
no external work: the event trace is empty, so nothing is dumped to the
input file, no external command is launched, and the process does not
exit. -/
theorem run_ext_cmd_logged {m : ℕ} {d : Fin m → ℕ}
    (self v : ModelState m d ℚ) (ext_cmd res_fname : String)
    (ss : SolverState) (files : String → Option (ModelState m d ℚ))
    (hlog : ("calling " ++ ext_cmd ++ " for " ++ res_fname) ∈ ss.log)
    (hfile : files res_fname = some v) :
    run_ext_cmd self ext_cmd res_fname ss files =
      ([], .returned v
        (ss.set_currstep ("calling " ++ ext_cmd ++ " for " ++ res_fname))) := by
  simp [run_ext_cmd, SolverState.currstep_logged, SolverState.set_currstep,
    hlog, hfile]

theorem run_ext_cmd_logged_witness :
    ("calling cmd.sh for res.nc" ∈ ["calling cmd.sh for res.nc"]) ∧
    ((fun s => if s = "res.nc"
        then some (fun (_ : Fin 1) (_ : Fin ((fun _ => 1) (0 : Fin 1))) => (42 : ℚ))
        else none) "res.nc" =
      some (fun _ _ => (42 : ℚ))) ∧
    run_ext_cmd (V := ModelState 1 (fun _ => 1) ℚ) (fun _ _ => (7 : ℚ))
        "cmd.sh" "res.nc" ⟨"wd", ["calling cmd.sh for res.nc"], none⟩
        (fun s => if s = "res.nc" then some (fun _ _ => (42 : ℚ)) else none) =
      ([], .returned (fun _ _ => (42 : ℚ))
        (SolverState.set_currstep ⟨"wd", ["calling cmd.sh for res.nc"], none⟩
          ("calling " ++ "cmd.sh" ++ " for " ++ "res.nc"))) :=
  ⟨by decide, by simp,
   run_ext_cmd_logged (fun _ _ => (7 : ℚ)) (fun _ _ => (42 : ℚ))
     "cmd.sh" "res.nc" ⟨"wd", ["calling cmd.sh for res.nc"], none⟩ _
     (by decide) (by simp)⟩

/-- C2: when the step key `calling <ext_cmd> for <res_fname>` is NOT
logged, `run_ext_cmd` performs, in this order: it dumps `self` to the
input file `ext_in.nc` in the work directory, launches the external
command (through `/bin/bash`, asynchronously, with no wait on
completion), flushes the solver state to durable storage, and
terminates the process.  Control never returns to the caller in this
invocation (the outcome is `exited`), the flush event comes after the
launch event, and the step key is still unlogged at exit. -/
theorem run_ext_cmd_unlogged {m : ℕ} {d : Fin m → ℕ}
    (self : ModelState m d ℚ) (ext_cmd res_fname : String)
    (ss : SolverState) (files : String → Option (ModelState m d ℚ))
    (hlog : ("calling " ++ ext_cmd ++ " for " ++ res_fname) ∉ ss.log) :
    run_ext_cmd self ext_cmd res_fname ss files =
      ([.dumpState (ss.workdir ++ "/ext_in.nc") self,
        .popen "/bin/bash" [ext_cmd, ss.workdir ++ "/ext_in.nc", res_fname],
        .flushLog,
        .procExit],
       .exited
        (ss.set_currstep ("calling " ++ ext_cmd ++ " for " ++ res_fname))) ∧
    ("calling " ++ ext_cmd ++ " for " ++ res_fname) ∉
      (ss.set_currstep ("calling " ++ ext_cmd ++ " for " ++ res_fname)).log := by
  refine ⟨?_, hlog⟩
  simp [run_ext_cmd, SolverState.currstep_logged, SolverState.set_currstep,
    SolverState.get_workdir, hlog]

theorem run_ext_cmd_unlogged_witness :
    ("calling cmd.sh for res.nc" ∉ ([] : List String)) ∧
    (run_ext_cmd (V := ModelState 1 (fun _ => 1) ℚ) (fun _ _ => (7 : ℚ))
        "cmd.sh" "res.nc" ⟨"wd", [], none⟩ (fun _ => none) =
      ([.dumpState ("wd" ++ "/ext_in.nc") (fun _ _ => (7 : ℚ)),
        .popen "/bin/bash" ["cmd.sh", "wd" ++ "/ext_in.nc", "res.nc"],
        .flushLog,
        .procExit],
       .exited (SolverState.set_currstep ⟨"wd", [], none⟩
         ("calling " ++ "cmd.sh" ++ " for " ++ "res.nc"))) ∧
     ("calling " ++ "cmd.sh" ++ " for " ++ "res.nc") ∉
      (SolverState.set_currstep ⟨"wd", [], none⟩
        ("calling " ++ "cmd.sh" ++ " for " ++ "res.nc")).log) :=
  ⟨by decide,
   run_ext_cmd_unlogged (fun _ _ => (7 : ℚ)) "cmd.sh" "res.nc"
     ⟨"wd", [], none⟩ (fun _ => none) (by decide)⟩

/-- `ModelState.mod_gram_schmidt` (`model.py` lines 216-226): for
`i_val = 0 .. cnt-1` in order, read basis vector `i_val` from
`fname_fcn(quantity, i_val)`, record the per-module coefficient column
`h_val[:, i_val] = self.dot(basis_i)`, and update
`self -= h_val[:, i_val] * basis_i` in place before the next basis
vector.  The in-place update is modelled by returning the final vector
together with the coefficient columns; reading a missing file yields
`none`. -/
def ModelState.mod_gram_schmidt {m : ℕ} {d : Fin m → ℕ} {α : Type}
    [CommRing α] (self : ModelState m d α) (cnt : ℕ)
    (fname_fcn : String → ℕ → String) (quantity : String)
    (files : String → Option (ModelState m d α)) :
    Option (ModelState m d α × List (Fin m → α)) :=
  (List.range cnt).foldl
    (fun acc i_val =>
      acc.bind fun vh =>
        (files (fname_fcn quantity i_val)).map fun basis_i =>
          (ModelState.sub vh.1
            (ModelState.pmul (ModelState.dot vh.1 basis_i) basis_i),
           vh.2 ++ [ModelState.dot vh.1 basis_i]))
    (some (self, []))

/-- The sequence of partially orthogonalized vectors produced by the
loop of `mod_gram_schmidt`: `mgsVec b vec i` is the value of `self`
after the first `i` basis vectors have been projected out. -/
def mgsVec {m : ℕ} {d : Fin m → ℕ} {α : Type} [CommRing α]
    (b : ℕ → ModelState m d α) (vec : ModelState m d α) :
    ℕ → ModelState m d α
  | 0 => vec
  | i + 1 =>
    ModelState.sub (mgsVec b vec i)
      (ModelState.pmul (ModelState.dot (mgsVec b vec i) (b i)) (b i))

theorem mod_gram_schmidt_eq_mgsVec {m : ℕ} {d : Fin m → ℕ} {α : Type}
    [CommRing α] (self : ModelState m d α) (cnt : ℕ)
    (fname_fcn : String → ℕ → String) (quantity : String)
    (files : String → Option (ModelState m d α))
    (b : ℕ → ModelState m d α)
    (hread : ∀ i, i < cnt → files (fname_fcn quantity i) = some (b i)) :
    ModelState.mod_gram_schmidt self cnt fname_fcn quantity files =
      some (mgsVec b self cnt,
        (List.range cnt).map fun i =>
          ModelState.dot (mgsVec b self i) (b i)) := by
  induction cnt with
  | zero => simp [ModelState.mod_gram_schmidt, mgsVec]
  | succ n ih =>
    have hread' : ∀ i, i < n → files (fname_fcn quantity i) = some (b i) :=
      fun i hi => hread i (Nat.lt_succ_of_lt hi)
    have hn := hread n (Nat.lt_succ_self n)
    have hfold := ih hread'
    simp only [ModelState.mod_gram_schmidt, List.range_succ,
      List.foldl_append, List.foldl_cons, List.foldl_nil] at hfold ⊢
    rw [hfold]
    simp [hn, mgsVec, List.map_append]

theorem mgsVec_dot_basis {m : ℕ} {d : Fin m → ℕ}
    (b : ℕ → ModelState m d ℝ) (vec : ModelState m d ℝ) (cnt : ℕ)
    (hunit : ∀ i, i < cnt → ∀ k, ModelState.dot (b i) (b i) k = 1)
    (horth : ∀ i j, i < cnt → j < cnt → i ≠ j → ∀ k,
      ModelState.dot (b i) (b j) k = 0) :
    ∀ i, i ≤ cnt → ∀ j, j < i → ∀ k,
      ModelState.dot (mgsVec b vec i) (b j) k = 0 := by
  intro i
  induction i with
  | zero => intro _ j hj; omega
  | succ n ih =>
    intro hle j hj k
    have hn : n ≤ cnt := Nat.le_of_succ_le hle
    have hncnt : n < cnt := Nat.lt_of_succ_le hle
    rw [mgsVec, ModelState.dot_sub_left, ModelState.dot_pmul_left]
    rcases Nat.lt_succ_iff_lt_or_eq.mp hj with hlt | heq
    · rw [ih hn j hlt k,
        horth n j hncnt (Nat.lt_trans hlt hncnt) (Nat.ne_of_gt hlt) k]
      ring
    · subst heq
      rw [hunit j hncnt k]
      ring

/-- C3: given `cnt` basis states `b_0 .. b_{cnt-1}` read from
`fname_fcn(quantity, i)`, each of unit norm and mutually orthogonal
(per tracer module), `mod_gram_schmidt` updates the vector by, for
`i = 0 .. cnt-1` in order, taking `h[:, i]` as the dot of the
already-updated vector with `b_i` and subtracting `h[:, i] * b_i`
before moving to `b_{i+1}` (the returned list holds exactly those
coefficient columns), and in exact arithmetic the resulting vector has
`dot(vec, b_i) = 0` for every `i < cnt` and every module. -/
theorem mod_gram_schmidt_spec {m : ℕ} {d : Fin m → ℕ}
    (self : ModelState m d ℝ) (cnt : ℕ)
    (fname_fcn : String → ℕ → String) (quantity : String)
    (files : String → Option (ModelState m d ℝ))
    (b : ℕ → ModelState m d ℝ)
    (hread : ∀ i, i < cnt → files (fname_fcn quantity i) = some (b i))
    (hunit : ∀ i, i < cnt → ∀ k, ModelState.norm (b i) k = 1)
    (horth : ∀ i j, i < cnt → j < cnt → i ≠ j → ∀ k,
      ModelState.dot (b i) (b j) k = 0) :
    ModelState.mod_gram_schmidt self cnt fname_fcn quantity files =
      some (mgsVec b self cnt,
        (List.range cnt).map fun i =>
          ModelState.dot (mgsVec b self i) (b i)) ∧
    ∀ i, i < cnt → ∀ k,
      ModelState.dot (mgsVec b self cnt) (b i) k = 0 := by
  refine ⟨mod_gram_schmidt_eq_mgsVec self cnt fname_fcn quantity files b hread,
    fun i hi k => ?_⟩
  have hunit' : ∀ i, i < cnt → ∀ k, ModelState.dot (b i) (b i) k = 1 :=
    fun i hi k => ModelState.dot_self_eq_one_of_norm (b i) k (hunit i hi k)
  exact mgsVec_dot_basis b self cnt hunit' horth cnt (Nat.le_refl cnt) i hi k

/-- Concrete data for the `mod_gram_schmidt` witness: a single spatial
point, a single module, basis vector constantly `1`, input vector
constantly `3`, basis file named `b0`. -/
def mgsB0 : ℕ → ModelState 1 (fun _ => 1) ℝ :=
  fun _ => fun _ _ => 1

/-- Input vector for the `mod_gram_schmidt` witness. -/
def mgsV0 : ModelState 1 (fun _ => 1) ℝ :=
  fun _ _ => 3

/-- File system for the `mod_gram_schmidt` witness. -/
def mgsFiles : String → Option (ModelState 1 (fun _ => 1) ℝ) :=
  fun s => if s = "b0" then some (fun _ _ => 1) else none

theorem mod_gram_schmidt_spec_witness :
    (∀ i, i < 1 →
      mgsFiles ((fun (_ : String) (_ : ℕ) => "b0") "fcn" i) = some (mgsB0 i)) ∧
    (∀ i, i < 1 → ∀ k, ModelState.norm (mgsB0 i) k = 1) ∧
    (∀ i j, i < 1 → j < 1 → i ≠ j → ∀ k,
      ModelState.dot (mgsB0 i) (mgsB0 j) k = 0) ∧
    (ModelState.mod_gram_schmidt mgsV0 1 (fun _ _ => "b0") "fcn" mgsFiles =
      some (mgsVec mgsB0 mgsV0 1,
        (List.range 1).map fun i =>
          ModelState.dot (mgsVec mgsB0 mgsV0 i) (mgsB0 i)) ∧
     ∀ i, i < 1 → ∀ k,
      ModelState.dot (mgsVec mgsB0 mgsV0 1) (mgsB0 i) k = 0) :=
  ⟨fun _ _ => rfl,
   fun i _ k => by simp [ModelState.norm, ModelState.dot, mgsB0],
   fun i j hi hj hij _ => absurd (show i = j by omega) hij,
   mod_gram_schmidt_spec mgsV0 1 (fun _ _ => "b0") "fcn" mgsFiles mgsB0
     (fun _ _ => rfl)
     (fun i _ k => by simp [ModelState.norm, ModelState.dot, mgsB0])
     (fun i j hi hj hij _ => absurd (show i = j by omega) hij)⟩

/-- `lin_comb` (`model.py` lines 280-285): start from
`coeff[:, 0] * ModelState(fname_fcn(quantity, 0))` and accumulate
`coeff[:, j] * ModelState(fname_fcn(quantity, j))` for
`j = 1 .. ncols-1`.  `coeff` is indexed `coeff k j` (module `k`,
column `j`), so column `j` scales each tracer module by its own
coefficient; `ncols` is `coeff.shape[-1]`. -/
def lin_comb {m : ℕ} {d : Fin m → ℕ} {α : Type} [CommRing α]
    (coeff : Fin m → ℕ → α) (fname_fcn : String → ℕ → String)
    (quantity : String) (ncols : ℕ)
    (files : String → Option (ModelState m d α)) :
    Option (ModelState m d α) :=
  (List.range' 1 (ncols - 1)).foldl
    (fun acc j_val =>
      acc.bind fun res =>
        (files (fname_fcn quantity j_val)).map fun vj =>
          ModelState.add res (ModelState.pmul (fun k => coeff k j_val) vj))
    ((files (fname_fcn quantity 0)).map fun v0 =>
      ModelState.pmul (fun k => coeff k 0) v0)

/-- C6: for a coefficient matrix with `ncols ≥ 1` columns and states
`v_0 .. v_{ncols-1}` read from `fname_fcn(quantity, j)`, `lin_comb`
returns `Σ_j coeff[:, j] * v_j`, where column `j` scales each tracer
module by its own per-module coefficient. -/
theorem lin_comb_spec {m : ℕ} {d : Fin m → ℕ} {α : Type} [CommRing α]
    (coeff : Fin m → ℕ → α) (fname_fcn : String → ℕ → String)
    (quantity : String) (ncols : ℕ)
    (files : String → Option (ModelState m d α))
    (v : ℕ → ModelState m d α)
    (hn : 1 ≤ ncols)
    (hread : ∀ j, j < ncols → files (fname_fcn quantity j) = some (v j)) :
    lin_comb coeff fname_fcn quantity ncols files =
      some (fun k x => ∑ j ∈ Finset.range ncols, coeff k j * v j k x) := by
  obtain ⟨n, rfl⟩ : ∃ n, ncols = n + 1 :=
    ⟨ncols - 1, (Nat.succ_pred_eq_of_pos hn).symm⟩
  clear hn
  induction n with
  | zero =>
    rw [lin_comb]
    simp only [Nat.add_sub_cancel, List.range'_zero, List.foldl_nil,
      hread 0 Nat.one_pos]
    refine congrArg some (funext fun k => funext fun x => ?_)
    simp [ModelState.pmul, Finset.sum_range_one]
  | succ n ih =>
    have hread' : ∀ j, j < n + 1 → files (fname_fcn quantity j) = some (v j) :=
      fun j hj => hread j (Nat.lt_succ_of_lt hj)
    have hfold := ih hread'
    rw [lin_comb] at hfold ⊢
    have hrange : List.range' 1 (n + 1 + 1 - 1) =
        List.range' 1 (n + 1 - 1) ++ [n + 1] := by
      simp [List.range'_concat, Nat.add_comm]
    rw [hrange, List.foldl_append, hfold, List.foldl_cons, List.foldl_nil]
    simp only [Option.bind_eq_bind, Option.some_bind,
      hread (n + 1) (Nat.lt_succ_self (n + 1)), Option.map_some]
    refine congrArg some (funext fun k => funext fun x => ?_)
    simp [ModelState.add, ModelState.pmul, Finset.sum_range_succ]

/-- Coefficient matrix for the `lin_comb` witness: column `j` holds
`j + 1`. -/
def lcCoeff : Fin 1 → ℕ → ℚ :=
  fun _ j => (j : ℚ) + 1

/-- Basis states for the `lin_comb` witness. -/
def lcV : ℕ → ModelState 1 (fun _ => 1) ℚ :=
  fun j => if j = 0 then (fun _ _ => 5) else (fun _ _ => 7)

/-- File-name scheme for the `lin_comb` witness. -/
def lcFname : String → ℕ → String :=
  fun _ j => if j = 0 then "v0" else "v1"

/-- File system for the `lin_comb` witness. -/
def lcFiles : String → Option (ModelState 1 (fun _ => 1) ℚ) :=
  fun s =>
    if s = "v0" then some (fun _ _ => 5)
    else if s = "v1" then some (fun _ _ => 7)
    else none

theorem lin_comb_spec_witness :
    1 ≤ 2 ∧
    (∀ j, j < 2 → lcFiles (lcFname "fcn" j) = some (lcV j)) ∧
    lin_comb lcCoeff lcFname "fcn" 2 lcFiles =
      some (fun k x => ∑ j ∈ Finset.range 2, lcCoeff k j * lcV j k x) :=
  ⟨by norm_num,
   fun j hj => by interval_cases j <;> rfl,
   lin_comb_spec lcCoeff lcFname "fcn" 2 lcFiles lcV (by norm_num)
     (fun j hj => by interval_cases j <;> rfl)⟩

/-- `ModelState.comp_jacobian_fcn_state_prod` (`model.py` lines 258-278):
`sigma = 1.0e-5 * self.norm()` (a per-module array), the result file is
`fcn_res.nc` in the work directory, and if the step
`comp_jacobian_fcn_state_prod_comp_fcn` is not logged the perturbed
state `self + sigma * direction` is run through `run_ext_cmd` (which
itself suspends when its own step is unlogged).  Finally the result
read from `fcn_res.nc`, minus `fcn`, divided per module by `sigma`, is
returned. -/
noncomputable def comp_jacobian_fcn_state_prod {m : ℕ} {d : Fin m → ℕ}
    (self fcn direction : ModelState m d ℝ) (solver_state : SolverState)
    (files : String → Option (ModelState m d ℝ)) :
    List (ExtEvent (ModelState m d ℝ)) × ExtResult (ModelState m d ℝ) :=
  let sigma : Fin m → ℝ := fun k => 1e-5 * ModelState.norm self k
  let res_fname := solver_state.get_workdir ++ "/fcn_res.nc"
  let ss := solver_state.set_currstep "comp_jacobian_fcn_state_prod_comp_fcn"
  if ss.currstep_logged then
    match files res_fname with
    | some w =>
      ([], .returned (ModelState.pdiv (ModelState.sub w fcn) sigma) ss)
    | none => ([], .readFail ss)
  else
    match run_ext_cmd (ModelState.add self (ModelState.pmul sigma direction))
        "./comp_fcn.sh" res_fname ss files with
    | (tr, ExtResult.returned _ ss2) =>
      match files res_fname with
      | some w =>
        (tr, .returned (ModelState.pdiv (ModelState.sub w fcn) sigma) ss2)
      | none => (tr, .readFail ss2)
    | other => other

/-- C4: for a ModelState `x`, a unit-norm direction and residual value
`fcn_x = F(x)`, when the step `comp_jacobian_fcn_state_prod_comp_fcn`
is already logged and the result file holds `F(x + sigma * direction)`
(the external-evaluation protocol reads the result file when the
corresponding step is logged), `comp_jacobian_fcn_state_prod` returns
`(F(x + sigma * direction) - fcn_x) / sigma`, with the per-module
perturbation magnitude `sigma = 1.0e-5 * ||x||`. -/
theorem comp_jacobian_fcn_state_prod_spec {m : ℕ} {d : Fin m → ℕ}
    (self direction : ModelState m d ℝ)
    (F : ModelState m d ℝ → ModelState m d ℝ)
    (ss : SolverState) (files : String → Option (ModelState m d ℝ))
    (hunit : ∀ k, ModelState.norm direction k = 1)
    (hlog : "comp_jacobian_fcn_state_prod_comp_fcn" ∈ ss.log)
    (hfile : files (ss.workdir ++ "/fcn_res.nc") =
      some (F (ModelState.add self
        (ModelState.pmul (fun k => 1e-5 * ModelState.norm self k)
          direction)))) :
    comp_jacobian_fcn_state_prod self (F self) direction ss files =
      ([], .returned
        (ModelState.pdiv
          (ModelState.sub
            (F (ModelState.add self
              (ModelState.pmul (fun k => 1e-5 * ModelState.norm self k)
                direction)))
            (F self))
          (fun k => 1e-5 * ModelState.norm self k))
        (ss.set_currstep "comp_jacobian_fcn_state_prod_comp_fcn")) := by
  simp [comp_jacobian_fcn_state_prod, SolverState.currstep_logged,
    SolverState.set_currstep, SolverState.get_workdir, hlog, hfile]

/-- Base state for the `comp_jacobian_fcn_state_prod` witness: one
module with one value, constantly `1`. -/
def cjX : ModelState 1 (fun _ => 1) ℝ :=
  fun _ _ => 1

/-- Unit-norm direction for the `comp_jacobian_fcn_state_prod`
witness. -/
def cjD : ModelState 1 (fun _ => 1) ℝ :=
  fun _ _ => 1

/-- The residual function for the `comp_jacobian_fcn_state_prod`
witness: the identity. -/
def cjF : ModelState 1 (fun _ => 1) ℝ → ModelState 1 (fun _ => 1) ℝ :=
  fun s => s

/-- The perturbed state whose residual the result file holds. -/
noncomputable def cjPert : ModelState 1 (fun _ => 1) ℝ :=
  ModelState.add cjX
    (ModelState.pmul (fun k => 1e-5 * ModelState.norm cjX k) cjD)

/-- File system for the `comp_jacobian_fcn_state_prod` witness: every
file name resolves to the perturbed state's residual. -/
noncomputable def cjFiles : String → Option (ModelState 1 (fun _ => 1) ℝ) :=
  fun _ => some cjPert

/-- Solver state for the `comp_jacobian_fcn_state_prod` witness, with
the comp-fcn step already logged. -/
def cjSS : SolverState :=
  ⟨"wd", ["comp_jacobian_fcn_state_prod_comp_fcn"], none⟩

theorem comp_jacobian_fcn_state_prod_spec_witness :
    (∀ k, ModelState.norm cjD k = 1) ∧
    ("comp_jacobian_fcn_state_prod_comp_fcn" ∈ cjSS.log) ∧
    (cjFiles (cjSS.workdir ++ "/fcn_res.nc") =
      some (cjF (ModelState.add cjX
        (ModelState.pmul (fun k => 1e-5 * ModelState.norm cjX k) cjD)))) ∧
    comp_jacobian_fcn_state_prod cjX (cjF cjX) cjD cjSS cjFiles =
      ([], .returned
        (ModelState.pdiv
          (ModelState.sub
            (cjF (ModelState.add cjX
              (ModelState.pmul (fun k => 1e-5 * ModelState.norm cjX k) cjD)))
            (cjF cjX))
          (fun k => 1e-5 * ModelState.norm cjX k))
        (cjSS.set_currstep "comp_jacobian_fcn_state_prod_comp_fcn")) :=
  ⟨fun k => by simp [ModelState.norm, ModelState.dot, cjD],
   by decide,
   rfl,
   comp_jacobian_fcn_state_prod_spec cjX cjD cjF cjSS cjFiles
     (fun k => by simp [ModelState.norm, ModelState.dot, cjD])
     (by decide) rfl⟩

/-- C7: for every pair of ModelStates `a`, `b` with identical
tracer-module sets and matching dimensions (encoded here by sharing the
type `ModelState m d α`), `a.dot(b) == b.dot(a)` holds exactly per
module, since each per-module dot product multiplies corresponding
elements and sums them in the same order. -/
theorem dot_comm {m : ℕ} {d : Fin m → ℕ} {α : Type} [CommRing α]
    (a b : ModelState m d α) :
    ModelState.dot a b = ModelState.dot b a := by
  funext k
  exact Finset.sum_congr rfl fun j _ => mul_comm (a k j) (b k j)

/-- C5: `converged()` holds if and only if every tracer module's norm is
strictly below the absolute tolerance `1.0e-10`, where the per-module
norm is the square root of the module's dot product with itself. -/
theorem converged_iff {m : ℕ} {d : Fin m → ℕ} (s : ModelState m d ℝ) :
    ModelState.converged s ↔
      ∀ k, Real.sqrt (∑ j, s k j * s k j) < 1e-10 :=
  Iff.rfl

/-- The Python exceptions raised by `model.py`, one constructor per
raise site (plus the errors numpy itself raises and netCDF4's lookup
failures). -/
inductive PyErr where
  /-- `model.py` line 297: `KeyError('unknown TracerModule name=', name)`. -/
  | keyError (name : String)
  /-- `model.py` line 299:
  `ValueError('exactly one of dims and vals_fname must be passed')`. -/
  | valueErrorDimsVals
  /-- `model.py` lines 315-317:
  `ValueError('not all vars have same dimensions', ...)`. -/
  | valueErrorVarDims (name fname : String)
  /-- `model.py` lines 320-323: `ValueError('ndims too large ...', ...)`. -/
  | valueErrorNdims (name fname : String) (ndims : ℕ)
  /-- numpy: `operands could not be broadcast together`. -/
  | valueErrorBroadcast
  /-- netCDF4 lookup of an absent variable (`fptr.variables[...]`). -/
  | missingVar (fname varname : String)
  /-- netCDF4 lookup of an absent dimension (`fptr.dimensions[...]`). -/
  | missingDim (fname dimname : String)
  /-- `nc.Dataset(vals_fname, mode='r')` on an absent file. -/
  | fileNotFound (fname : String)
  /-- Python `IndexError` (indexing `self._varnames[0]` on an empty
  list; unreachable for the module names the code accepts). -/
  | indexError (fname : String)
  deriving DecidableEq

/-- A 2-D numpy array: the `TracerModule._vals` array, of shape
`(len(varnames), grid size)` for the 1-D grids this model uses, with
`vals i j` meaningful for `i < rows`, `j < cols`. -/
structure Arr2 (α : Type) where
  rows : ℕ
  cols : ℕ
  vals : ℕ → ℕ → α

/-- numpy's broadcast rule for one axis: equal extents broadcast to
themselves, an extent of `1` stretches to the other extent, anything
else fails. -/
def bcastDim (n1 n2 : ℕ) : Option ℕ :=
  if n1 = n2 then some n1
  else if n1 = 1 then some n2
  else if n2 = 1 then some n1
  else none

/-- Index into an axis that may have been stretched from extent `1`. -/
def bcastIdx (n i : ℕ) : ℕ :=
  if n = 1 then 0 else i

/-- An elementwise numpy binary operation on two 2-D arrays
(`self._vals + other._vals` and friends, `model.py` lines 358-483):
shapes are broadcast axis by axis; incompatible shapes raise
`ValueError`. -/
def npBinOp {α : Type} (f : α → α → α) (a b : Arr2 α) :
    Except PyErr (Arr2 α) :=
  match bcastDim a.rows b.rows, bcastDim a.cols b.cols with
  | some r, some c =>
    .ok ⟨r, c, fun i j =>
      f (a.vals (bcastIdx a.rows i) (bcastIdx a.cols j))
        (b.vals (bcastIdx b.rows i) (bcastIdx b.cols j))⟩
  | _, _ => .error .valueErrorBroadcast

/-- A tracer module as the arithmetic operators see it: its name and its
values array. -/
structure TracerModuleArr (α : Type) where
  name : String
  vals : Arr2 α

/-- `TracerModule.__add__` / `__sub__` / `__mul__` / `__truediv__` with a
`TracerModule` operand (`model.py` lines 358-483): the result keeps
`self`'s name and dims (`TracerModule(self._name, dims=self._dims)`) and
holds the numpy combination of the two values arrays.  No check relates
the two operands' names or shapes; numpy broadcasting decides. -/
def tmBinOp {α : Type} (f : α → α → α) (a b : TracerModuleArr α) :
    Except PyErr (TracerModuleArr α) :=
  (npBinOp f a.vals b.vals).map fun v => ⟨a.name, v⟩

/-- Elementwise combination of two equal-length tracer-module object
arrays, propagating the first element-level exception (the
`self._tracer_modules + other._tracer_modules` loop numpy performs). -/
def tmZipOp {α : Type} (f : α → α → α) :
    List (TracerModuleArr α) → List (TracerModuleArr α) →
    Except PyErr (List (TracerModuleArr α))
  | [], _ => .ok []
  | _, [] => .ok []
  | x :: xs, y :: ys =>
    match tmBinOp f x y with
    | .error e => .error e
    | .ok z => (tmZipOp f xs ys).map (z :: ·)

/-- Combination of a single module against each module of a list: the
length-1 branch of numpy's broadcast of two 1-D object arrays. -/
def tmMapLeft {α : Type} (f : α → α → α) (x : TracerModuleArr α) :
    List (TracerModuleArr α) → Except PyErr (List (TracerModuleArr α))
  | [] => .ok []
  | y :: ys =>
    match tmBinOp f x y with
    | .error e => .error e
    | .ok z => (tmMapLeft f x ys).map (z :: ·)

/-- As `tmMapLeft`, with the single module on the right. -/
def tmMapRight {α : Type} (f : α → α → α) (y : TracerModuleArr α) :
    List (TracerModuleArr α) → Except PyErr (List (TracerModuleArr α))
  | [] => .ok []
  | x :: xs =>
    match tmBinOp f x y with
    | .error e => .error e
    | .ok z => (tmMapRight f y xs).map (z :: ·)

/-- `ModelState.__add__` etc. with a `ModelState` operand (`model.py`
lines 49-199): `self._tracer_modules + other._tracer_modules`, numpy
addition of two 1-D object arrays of shapes `(len a,)` and `(len b,)`:
equal lengths combine elementwise, a length-1 operand broadcasts, and
any other length mismatch raises `ValueError`. -/
def msBinOp {α : Type} (f : α → α → α)
    (a b : List (TracerModuleArr α)) :
    Except PyErr (List (TracerModuleArr α)) :=
  if a.length = b.length then tmZipOp f a b
  else
    match a, b with
    | [x], ys => tmMapLeft f x ys
    | [], [y] => tmMapRight f y []
    | x1 :: x2 :: xs, [y] => tmMapRight f y (x1 :: x2 :: xs)
    | [], [] => .error .valueErrorBroadcast
    | [], _ :: _ :: _ => .error .valueErrorBroadcast
    | _ :: _ :: _, [] => .error .valueErrorBroadcast
    | _ :: _ :: _, _ :: _ :: _ => .error .valueErrorBroadcast

/-- `ModelState.__add__` on two ModelStates. -/
def msAdd {α : Type} [Add α] (a b : List (TracerModuleArr α)) :
    Except PyErr (List (TracerModuleArr α)) :=
  msBinOp (· + ·) a b

/-- `ModelState.__sub__` on two ModelStates. -/
def msSub {α : Type} [Sub α] (a b : List (TracerModuleArr α)) :
    Except PyErr (List (TracerModuleArr α)) :=
  msBinOp (· - ·) a b

/-- `ModelState.__mul__` on two ModelStates. -/
def msMul {α : Type} [Mul α] (a b : List (TracerModuleArr α)) :
    Except PyErr (List (TracerModuleArr α)) :=
  msBinOp (· * ·) a b

/-- `ModelState.__truediv__` on two ModelStates. -/
def msDiv {α : Type} [Div α] (a b : List (TracerModuleArr α)) :
    Except PyErr (List (TracerModuleArr α)) :=
  msBinOp (· / ·) a b

/-- C8 counterexample: a StateVector holding the module `x` with values
of shape `(2, 2)` added to a StateVector holding the module `y` with
values of shape `(1, 2)` — mismatched module sets AND mismatched
shapes — does NOT fail: numpy broadcasts the `(1, 2)` array and the
addition produces a result.  No ShapeMismatch error exists anywhere in
the code. -/
theorem shape_mismatch_add_succeeds :
    ("x" ≠ "y") ∧
    ((2 : ℕ) ≠ 1) ∧
    (msAdd [⟨"x", ⟨2, 2, fun _ _ => (1 : ℚ)⟩⟩]
        [⟨"y", ⟨1, 2, fun _ _ => (2 : ℚ)⟩⟩]).isOk = true :=
  ⟨by decide, by decide, rfl⟩

/-- C8 as amended: no ShapeMismatch error exists; instead, for each of
the four arithmetic operations, (i) operands whose module counts differ
with neither count equal to `1` fail with numpy's broadcast
`ValueError`; (ii) module values whose shapes differ and are not
broadcastable (some axis has different extents, neither `1`) likewise
fail with numpy's broadcast `ValueError`; and (iii) mismatched shapes
that numpy can broadcast (an axis of extent `1`) produce a result. -/
theorem shape_mismatch_amended {α : Type} (f : α → α → α) :
    (∀ a b : List (TracerModuleArr α),
      a.length ≠ b.length → a.length ≠ 1 → b.length ≠ 1 →
      msBinOp f a b = .error .valueErrorBroadcast) ∧
    (∀ a b : Arr2 α,
      (a.rows ≠ b.rows ∧ a.rows ≠ 1 ∧ b.rows ≠ 1) ∨
        (a.cols ≠ b.cols ∧ a.cols ≠ 1 ∧ b.cols ≠ 1) →
      npBinOp f a b = .error .valueErrorBroadcast) ∧
    (∀ a b : Arr2 α, b.rows = 1 → b.cols = a.cols →
      (npBinOp f a b).isOk = true) := by
  refine ⟨fun a b hlen ha hb => ?_, fun a b hmis => ?_, fun a b hr hc => ?_⟩
  · rcases a with _ | ⟨x1, _ | ⟨x2, xs⟩⟩ <;>
      rcases b with _ | ⟨y1, _ | ⟨y2, ys⟩⟩
    · exact absurd rfl hlen
    · exact absurd rfl hb
    · rw [msBinOp, if_neg hlen]
    · exact absurd rfl ha
    · exact absurd rfl ha
    · exact absurd rfl ha
    · rw [msBinOp, if_neg hlen]
    · exact absurd rfl hb
    · rw [msBinOp, if_neg hlen]

  · have hnone : bcastDim a.rows b.rows = none ∨ bcastDim a.cols b.cols = none := by
      rcases hmis with ⟨h1, h2, h3⟩ | ⟨h1, h2, h3⟩
      · exact Or.inl (by simp [bcastDim, h1, h2, h3])
      · exact Or.inr (by simp [bcastDim, h1, h2, h3])
    rcases hnone with h | h <;>
      · rw [npBinOp]
        rcases hr : bcastDim a.rows b.rows with _ | r <;>
          rcases hc : bcastDim a.cols b.cols with _ | c <;>
            simp_all
  · have h1 : ∃ r, bcastDim a.rows b.rows = some r := by
      rw [hr]
      by_cases h : a.rows = 1
      · exact ⟨1, by simp [bcastDim, h]⟩
      · rcases eq_or_ne a.rows 1 with h' | h'
        · exact absurd h' h
        · exact ⟨a.rows, by
            rcases eq_or_ne a.rows (1 : ℕ) with hh | hh
            · exact absurd hh h
            · simp [bcastDim, hh]⟩
    have h2 : ∃ c, bcastDim a.cols b.cols = some c :=
      ⟨a.cols, by simp [bcastDim, hc]⟩
    rcases h1 with ⟨r, h1⟩
    rcases h2 with ⟨c, h2⟩
    rw [npBinOp, h1, h2]
    rfl

theorem shape_mismatch_amended_witness :
    ((2 : ℕ) ≠ 3 ∧ (2 : ℕ) ≠ 1 ∧ (3 : ℕ) ≠ 1) ∧
    (msBinOp (α := ℚ) (· + ·)
      [⟨"x", ⟨2, 2, fun _ _ => 1⟩⟩, ⟨"y", ⟨1, 2, fun _ _ => 1⟩⟩]
      [⟨"x", ⟨2, 2, fun _ _ => 1⟩⟩, ⟨"y", ⟨1, 2, fun _ _ => 1⟩⟩,
       ⟨"y", ⟨1, 2, fun _ _ => 1⟩⟩] = .error .valueErrorBroadcast) ∧
    (npBinOp (α := ℚ) (· + ·) ⟨2, 4, fun _ _ => 1⟩ ⟨3, 4, fun _ _ => 1⟩ =
      .error .valueErrorBroadcast) ∧
    ((npBinOp (α := ℚ) (· + ·) ⟨2, 4, fun _ _ => 1⟩
      ⟨1, 4, fun _ _ => 1⟩).isOk = true) :=
  ⟨⟨by decide, by decide, by decide⟩,
   (shape_mismatch_amended (α := ℚ) (· + ·)).1 _ _
     (by decide) (by decide) (by decide),
   (shape_mismatch_amended (α := ℚ) (· + ·)).2.1 _ _
     (Or.inl ⟨by decide, by decide, by decide⟩),
   (shape_mismatch_amended (α := ℚ) (· + ·)).2.2 _ _ rfl rfl⟩

/-- The parts of a netCDF file that `TracerModule.__init__` reads
(`model.py` lines 302-326): dimension sizes, each variable's dimension
names, and each variable's (flattened) values. -/
structure NcFile (α : Type) where
  dimsize : String → Option ℕ
  varDims : String → Option (List String)
  varVals : String → Option (List α)

/-- The fields `TracerModule.__init__` can set (`model.py` lines
290-326): `_name`, `_varnames`, and the optionally-set `_dims` and
`_vals` (left unset — `none` — when neither `dims` nor `vals_fname` was
passed). -/
structure TracerModuleData (α : Type) where
  name : String
  varnames : List String
  dims : Option (List (String × ℕ))
  vals : Option (List (List α))

/-- The fields `ModelState.__init__` sets (`model.py` lines 13-20):
`_tracer_module_names` and, only when `vals_fname` was passed,
`_tracer_modules`. -/
structure ModelStateData (α : Type) where
  tracer_module_names : List String
  tracer_modules : Option (List (TracerModuleData α))

/-- `model.py` line 291: the fixed table
`module_varnames = {x: [x1, x2], y: [y]}`. -/
def module_varnames (name : String) : Option (List String) :=
  if name = "x" then some ["x1", "x2"]
  else if name = "y" then some ["y"]
  else none

/-- `model.py` line 298, exactly as written:
`dims is None != vals_fname is None` is a Python chained comparison,
`(dims is None) and (None != vals_fname) and (vals_fname is None)`. -/
def dimsValsGuard {D F : Type} (dims : Option D) (vals_fname : Option F) :
    Bool :=
  dims.isNone && vals_fname.isSome && vals_fname.isNone

/-- `model.py` lines 305-308: collect each dimension's size from the
file (`fptr.dimensions[dimname].size`), failing on an absent
dimension. -/
def dimSizes {α : Type} (fname : String) (f : NcFile α) :
    List String → Except PyErr (List (String × ℕ))
  | [] => .ok []
  | dn :: rest =>
    match f.dimsize dn with
    | none => .error (.missingDim fname dn)
    | some sz => (dimSizes fname f rest).map ((dn, sz) :: ·)

/-- `model.py` lines 312-317: check that every variable has the same
dimensions as the first one, raising
`ValueError('not all vars have same dimensions', ...)` otherwise. -/
def checkVarDims {α : Type} (name fname : String) (f : NcFile α)
    (dimnames0 : List String) :
    List String → Except PyErr Unit
  | [] => .ok ()
  | vn :: rest =>
    match f.varDims vn with
    | none => .error (.missingVar fname vn)
    | some ds =>
      if ds = dimnames0 then checkVarDims name fname f dimnames0 rest
      else .error (.valueErrorVarDims name fname)

/-- `model.py` lines 324-326: read each variable's values into the
per-variable slices of `_vals`. -/
def readVarVals {α : Type} (fname : String) (f : NcFile α) :
    List String → Except PyErr (List (List α))
  | [] => .ok []
  | vn :: rest =>
    match f.varVals vn with
    | none => .error (.missingVar fname vn)
    | some vs => (readVarVals fname f rest).map (vs :: ·)

/-- The body of the `with nc.Dataset(vals_fname) as fptr` block of
`TracerModule.__init__` (`model.py` lines 304-326): dims from the first
variable, the same-dimensions check, the `ndims > 3` check, then the
values. -/
def readVals {α : Type} (name fname : String) (varnames : List String)
    (f : NcFile α) :
    Except PyErr (List (String × ℕ) × List (List α)) :=
  match varnames with
  | [] => .error (.indexError fname)
  | v0 :: _ =>
    match f.varDims v0 with
    | none => .error (.missingVar fname v0)
    | some dimnames0 =>
      match dimSizes fname f dimnames0 with
      | .error e => .error e
      | .ok dims =>
        match checkVarDims name fname f dimnames0 varnames with
        | .error e => .error e
        | .ok _ =>
          if 3 < dimnames0.length then
            .error (.valueErrorNdims name fname dimnames0.length)
          else
            match readVarVals fname f varnames with
            | .error e => .error e
            | .ok vals => .ok (dims, vals)

/-- `TracerModule.__init__` (`model.py` lines 290-326): resolve the
variable names (raising `KeyError` for an unknown module name, before
any file is opened), test the `dims`/`vals_fname` guard, then set
`_dims` from the `dims` argument and/or read the file when `vals_fname`
was passed. -/
def tracerModuleInit {α : Type} (name : String)
    (dims : Option (List (String × ℕ))) (vals_fname : Option String)
    (files : String → Option (NcFile α)) :
    Except PyErr (TracerModuleData α) :=
  match module_varnames name with
  | none => .error (.keyError name)
  | some varnames =>
    if dimsValsGuard dims vals_fname then .error .valueErrorDimsVals
    else
      match vals_fname with
      | none => .ok ⟨name, varnames, dims, none⟩
      | some fname =>
        match files fname with
        | none => .error (.fileNotFound fname)
        | some f =>
          match readVals name fname varnames f with
          | .error e => .error e
          | .ok rv => .ok ⟨name, varnames, some rv.1, some rv.2⟩

/-- The loop of `ModelState.__init__` (`model.py` lines 17-20):
construct a `TracerModule` for each module name in order, the first
exception propagating. -/
def initTracerModules {α : Type} (fname : String)
    (files : String → Option (NcFile α)) :
    List String → Except PyErr (List (TracerModuleData α))
  | [] => .ok []
  | nm :: rest =>
    match tracerModuleInit nm none (some fname) files with
    | .error e => .error e
    | .ok tm => (initTracerModules fname files rest).map (tm :: ·)

/-- `ModelState.__init__` (`model.py` lines 13-20): store the module
names; only when `vals_fname` is passed are any `TracerModule`s
constructed (otherwise `_tracer_modules` is left unset). -/
def modelStateInit {α : Type} (tracer_module_names : List String)
    (vals_fname : Option String)
    (files : String → Option (NcFile α)) :
    Except PyErr (ModelStateData α) :=
  match vals_fname with
  | none => .ok ⟨tracer_module_names, none⟩
  | some fname =>
    match initTracerModules fname files tracer_module_names with
    | .error e => .error e
    | .ok tms => .ok ⟨tracer_module_names, some tms⟩

theorem dimsValsGuard_false {D F : Type} (dims : Option D)
    (vals_fname : Option F) : dimsValsGuard dims vals_fname = false := by
  rcases vals_fname with _ | v <;> simp [dimsValsGuard]

theorem dimSizes_error {α : Type} (fname : String) (f : NcFile α) :
    ∀ (l : List String) (e : PyErr), dimSizes fname f l = .error e →
      ∃ dn, e = .missingDim fname dn := by
  intro l
  induction l with
  | nil => intro e h; exact absurd h (by simp [dimSizes])
  | cons dn rest ih =>
    intro e h
    rw [dimSizes] at h
    split at h
    · exact ⟨dn, (Except.error.inj h).symm⟩
    · cases hr : dimSizes fname f rest with
      | error e2 =>
        rw [hr] at h
        simp only [Except.map] at h
        exact (Except.error.inj h) ▸ ih e2 hr
      | ok v =>
        rw [hr] at h
        simp only [Except.map] at h
        exact Except.noConfusion h

theorem checkVarDims_error {α : Type} (name fname : String) (f : NcFile α)
    (dimnames0 : List String) :
    ∀ (l : List String) (e : PyErr),
      checkVarDims name fname f dimnames0 l = .error e →
      (∃ vn, e = .missingVar fname vn) ∨ e = .valueErrorVarDims name fname := by
  intro l
  induction l with
  | nil => intro e h; exact absurd h (by simp [checkVarDims])
  | cons vn rest ih =>
    intro e h
    rw [checkVarDims] at h
    split at h
    · exact Or.inl ⟨vn, (Except.error.inj h).symm⟩
    · split at h
      · exact ih e h
      · exact Or.inr (Except.error.inj h).symm

theorem readVarVals_error {α : Type} (fname : String) (f : NcFile α) :
    ∀ (l : List String) (e : PyErr), readVarVals fname f l = .error e →
      ∃ vn, e = .missingVar fname vn := by
  intro l
  induction l with
  | nil => intro e h; exact absurd h (by simp [readVarVals])
  | cons vn rest ih =>
    intro e h
    rw [readVarVals] at h
    split at h
    · exact ⟨vn, (Except.error.inj h).symm⟩
    · cases hr : readVarVals fname f rest with
      | error e2 =>
        rw [hr] at h
        simp only [Except.map] at h
        exact (Except.error.inj h) ▸ ih e2 hr
      | ok v =>
        rw [hr] at h
        simp only [Except.map] at h
        exact Except.noConfusion h

theorem readVals_ne_dimsVals {α : Type} (name fname : String)
    (varnames : List String) (f : NcFile α) :
    readVals name fname varnames f ≠ .error .valueErrorDimsVals := by
  intro h
  rw [readVals.eq_def] at h
  split at h
  · simp at h
  · rename_i v0 rest
    split at h
    · simp at h
    · rename_i dimnames0 hvd
      split at h
      · rename_i e hds
        obtain ⟨dn, rfl⟩ := dimSizes_error fname f dimnames0 e hds
        simp at h
      · rename_i dims hds
        split at h
        · rename_i e hcv
          rcases checkVarDims_error name fname f dimnames0 _ e hcv
            with ⟨vn, rfl⟩ | rfl <;> simp at h
        · rename_i u hcv
          split at h
          · simp at h
          · split at h
            · rename_i e hrv
              obtain ⟨vn, rfl⟩ := readVarVals_error fname f _ e hrv
              simp at h
            · simp at h

/-- C9: the guard on `model.py` line 298,
`dims is None != vals_fname is None`, is a chained comparison whose
last two conjuncts (`None != vals_fname` and `vals_fname is None`) are
contradictory, so it is false for every combination of constructor
arguments; consequently `TracerModule.__init__` never raises
`ValueError('exactly one of dims and vals_fname must be passed')`, and
in particular construction with a valid name and with both `dims` and
`vals_fname` omitted succeeds, leaving the dims and values fields
unset. -/
theorem tracer_module_guard_unreachable :
    (∀ (dims : Option (List (String × ℕ))) (vals_fname : Option String),
      dimsValsGuard dims vals_fname = false) ∧
    (∀ (name : String) (dims : Option (List (String × ℕ)))
      (vals_fname : Option String) (files : String → Option (NcFile ℚ)),
      tracerModuleInit name dims vals_fname files ≠
        .error .valueErrorDimsVals) ∧
    (∀ files : String → Option (NcFile ℚ),
      tracerModuleInit "x" none none files =
        .ok ⟨"x", ["x1", "x2"], none, none⟩) := by
  refine ⟨fun dims vf => dimsValsGuard_false dims vf,
    fun name dims vf files h => ?_, fun files => rfl⟩
  rw [tracerModuleInit] at h
  split at h
  · simp at h
  · rename_i varnames hmv
    rw [dimsValsGuard_false] at h
    simp only [Bool.false_eq_true, if_false] at h
    split at h
    · simp at h
    · rename_i fname
      split at h
      · simp at h
      · rename_i f hf
        split at h
        · rename_i e hrv
          simp only [Except.error.injEq] at h
          exact readVals_ne_dimsVals name fname varnames f (h ▸ hrv)
        · simp at h

theorem tracer_module_guard_unreachable_witness :
    (tracerModuleInit (α := ℚ) "x" none (some "absent.nc")
      (fun _ => none) ≠ .error .valueErrorDimsVals) ∧
    (tracerModuleInit (α := ℚ) "x" none none (fun _ => none) =
      .ok ⟨"x", ["x1", "x2"], none, none⟩) :=
  ⟨tracer_module_guard_unreachable.2.1 "x" none (some "absent.nc")
    (fun _ => none),
   tracer_module_guard_unreachable.2.2 (fun _ => none)⟩

theorem module_varnames_some {name : String} {v : List String}
    (h : module_varnames name = some v) : name = "x" ∨ name = "y" := by
  by_cases hx : name = "x"
  · exact Or.inl hx
  · by_cases hy : name = "y"
    · exact Or.inr hy
    · rw [module_varnames, if_neg hx, if_neg hy] at h
      exact absurd h (by simp)

theorem tracerModuleInit_ok_name {α : Type} {nm : String}
    {dims : Option (List (String × ℕ))} {vf : Option String}
    {files : String → Option (NcFile α)} {tm : TracerModuleData α}
    (h : tracerModuleInit nm dims vf files = .ok tm) :
    tm.name = "x" ∨ tm.name = "y" := by
  rw [tracerModuleInit] at h
  split at h
  · exact absurd h (by simp)
  · rename_i varnames hmv
    rw [dimsValsGuard_false] at h
    simp only [Bool.false_eq_true, if_false] at h
    have hname : tm.name = nm := by
      split at h
      · simp only [Except.ok.injEq] at h
        rw [← h]
      · split at h
        · exact absurd h (by simp)
        · split at h
          · exact absurd h (by simp)
          · simp only [Except.ok.injEq] at h
            rw [← h]
    rw [hname]
    exact module_varnames_some hmv

theorem initTracerModules_names {α : Type} (fname : String)
    (files : String → Option (NcFile α)) :
    ∀ (names : List String) (tms : List (TracerModuleData α)),
      initTracerModules fname files names = .ok tms →
      ∀ tm ∈ tms, tm.name = "x" ∨ tm.name = "y" := by
  intro names
  induction names with
  | nil =>
    intro tms h
    rw [initTracerModules] at h
    simp only [Except.ok.injEq] at h
    rw [← h]
    intro tm htm
    exact absurd htm (List.not_mem_nil tm)
  | cons nm rest ih =>
    intro tms h
    rw [initTracerModules] at h
    split at h
    · exact Except.noConfusion h
    · rename_i tm0 h0
      cases hr : initTracerModules fname files rest with
      | error e =>
        rw [hr] at h
        simp only [Except.map] at h
        exact Except.noConfusion h
      | ok ts =>
        rw [hr] at h
        simp only [Except.map, Except.ok.injEq] at h
        intro tm htm
        rw [← h] at htm
        rcases List.mem_cons.mp htm with rfl | hmem
        · exact tracerModuleInit_ok_name h0
        · exact ih ts hr tm hmem

/-- C10 counterexample: `ModelState.__init__` with the unknown module
name `z` and no `vals_fname` succeeds — it constructs no
`TracerModule`s at all (`model.py` lines 16-20), so no `KeyError` is
raised, refuting the claim that ANY ModelState construction raises
`KeyError` for module names other than `x` and `y`. -/
theorem model_state_init_unknown_name_ok :
    modelStateInit (α := ℚ) ["z"] none (fun _ => none) =
      .ok ⟨["z"], none⟩ :=
  rfl

/-- C10 as amended: `TracerModule.__init__` raises `KeyError` for every
module name other than `x` and `y`, before any file is opened (the
`files` map is arbitrary, so no file access is needed for the error);
hence any ModelState construction *that passes `vals_fname`* fails that
way for such names, and every tracer module a successfully constructed
ModelState holds is named `x` or `y`.  (A ModelState constructed
without `vals_fname` creates no tracer modules and raises nothing.) -/
theorem tracer_module_names_closed :
    (∀ (name : String), name ≠ "x" → name ≠ "y" →
      ∀ (dims : Option (List (String × ℕ))) (vf : Option String)
        (files : String → Option (NcFile ℚ)),
        tracerModuleInit name dims vf files = .error (.keyError name)) ∧
    (∀ (names : List String) (fname : String)
      (files : String → Option (NcFile ℚ)) (st : ModelStateData ℚ),
      modelStateInit names (some fname) files = .ok st →
      ∀ tms, st.tracer_modules = some tms →
        ∀ tm ∈ tms, tm.name = "x" ∨ tm.name = "y") := by
  constructor
  · intro name hx hy dims vf files
    rw [tracerModuleInit, module_varnames, if_neg hx, if_neg hy]
  · intro names fname files st h tms htms tm htm
    rw [modelStateInit] at h
    split at h
    · exact Except.noConfusion h
    · rename_i ts hr
      simp only [Except.ok.injEq] at h
      rw [← h] at htms
      simp only [Option.some.injEq] at htms
      exact initTracerModules_names fname files names ts hr tm (htms ▸ htm)

/-- netCDF file for the amended-C10 witness: dimension `depth` of size
1, variables `x1` and `x2` over it. -/
def c10Nc : NcFile ℚ :=
  ⟨fun dn => if dn = "depth" then some 1 else none,
   fun vn => if vn = "x1" ∨ vn = "x2" then some ["depth"] else none,
   fun vn =>
     if vn = "x1" then some [2]
     else if vn = "x2" then some [3]
     else none⟩

/-- File system for the amended-C10 witness. -/
def c10Files : String → Option (NcFile ℚ) :=
  fun s => if s = "state.nc" then some c10Nc else none

/-- The tracer module the witness construction produces. -/
def c10TM : TracerModuleData ℚ :=
  ⟨"x", ["x1", "x2"], some [("depth", 1)], some [[2], [3]]⟩

/-- The ModelState the witness construction produces. -/
def c10St : ModelStateData ℚ :=
  ⟨["x"], some [c10TM]⟩

theorem tracer_module_names_closed_witness :
    ("z" ≠ "x") ∧ ("z" ≠ "y") ∧
    (tracerModuleInit (α := ℚ) "z" none none (fun _ => none) =
      .error (.keyError "z")) ∧
    (modelStateInit ["x"] (some "state.nc") c10Files = .ok c10St) ∧
    (c10St.tracer_modules = some [c10TM]) ∧
    (∀ tm ∈ [c10TM], tm.name = "x" ∨ tm.name = "y") :=
  ⟨by decide, by decide,
   tracer_module_names_closed.1 "z" (by decide) (by decide) none none
     (fun _ => none),
   rfl, rfl,
   tracer_module_names_closed.2 ["x"] "state.nc" c10Files c10St rfl
     [c10TM] rfl⟩

end Newton
